import Mathlib

/-!
Verification of the credential lookup core of
`git-credential-store-pathprefix-rs` (src/main.rs).

The embedding models:
  * the `GitCredential` record (fields `protocol`, `host`, `username`,
    `password`, `path`, each optional) as consumed and produced by
    `lookup_credential`;
  * a parsed URL (the observable surface of `url::Url` used by the code:
    `scheme()`, `username()`, `password()`, `host_str()`, `path()`);
  * the helper ` trim_prefix` (built on Rust's `str::strip_prefix` /
    `unwrap_or`), embedded at the character-list level;
  * `locate_git_credentials`, parameterized by the process environment
    (value of the `GIT_CREDENTIALS` variable and the home directory);
  * `lookup_credential` itself, parameterized by the file system
    (result of `File::open` plus the per-line read results) and by the
    external URL parser (`Url::parse` comes from the `url` crate, so it
    enters the model as a function `String → Option Url`).

The three gates of the match loop are split out as `gateA`, `gateB`,
`gateC`, each a literal transcription of the corresponding `continue`
condition (negated, so `true` means the entry survives the gate).
-/

/-- Embedding of Rust `str::starts_with` at the character level: the
pattern's characters form a prefix of the subject's characters. -/
def starts_with (s pat : String) : Bool :=
  pat.data.isPrefixOf s.data

/-- Embedding of Rust `str::strip_prefix`: drop the pattern from the front
when it is a prefix, otherwise `none`. -/
def strip_prefix (s pat : String) : Option String :=
  if starts_with s pat then some ⟨s.data.drop pat.data.length⟩ else none

/-- Embedding of `trim_prefix` from src/main.rs:
`s.strip_prefix(prefix).unwrap_or(s)`. -/
def trim_prefix (s pat : String) : String :=
  ( strip_prefix s pat).getD s

/-- Observable surface of a parsed `url::Url` as used by the matcher:
`scheme()` (never empty on a parsed URL), `username()` (empty string when
absent), `password()`, `host_str()`, `path()`. -/
structure Url where
  scheme : String
  username : String
  password : Option String
  host : Option String
  path : String
deriving DecidableEq, Repr

/-- The credential record of the `gitcredential` crate as used here: five
independently optional string fields. -/
structure GitCredential where
  protocol : Option String := none
  host : Option String := none
  username : Option String := none
  password : Option String := none
  path : Option String := none
deriving DecidableEq, Repr

/-- Modelled from the spec: `GitCredential::from_url` lives in the external
`gitcredential` crate (not in src/); the spec says the matched record is
reconstructed from the entry URL as scheme→protocol, host, username,
path-without-leading-slash, and password if embedded. -/
def GitCredential.from_url (url : Url) : GitCredential :=
  { protocol := some url.scheme
    host := url.host
    username := (some url.username).filter (fun s => !s.isEmpty)
    password := url.password
    path := some ( trim_prefix url.path "/") }

/-- The error taxonomy of `LookupError` in src/main.rs; the `io::Error` /
`url::ParseError` sources are kept only through the payloads the code
attaches (the path, the offending line). -/
inductive LookupError where
  | locateGitCredentials
  | openGitCredentials (path : String)
  | readLine
  | invalidUrl (input : String)
deriving DecidableEq, Repr

/-- The kind of an `io::Error` returned by `File::open`, as far as the code
inspects it (`e.kind() == io::ErrorKind::NotFound`). -/
inductive IoErrorKind where
  | notFound
  | other
deriving DecidableEq, Repr

/-- Result of `File::open` followed by `BufReader::lines()`: either an open
error of some kind, or the sequence of per-line read results (`none` is a
line whose read failed with an I/O error). -/
inductive OpenResult where
  | openError (kind : IoErrorKind)
  | opened (lines : List (Option String))
deriving DecidableEq, Repr

/-- The ambient process/OS state `lookup_credential` touches: the
`GIT_CREDENTIALS` environment variable, the home directory, the file
system, and the external URL parser of the `url` crate. -/
structure Env where
  gitCredentialsVar : Option String
  homeDir : Option String
  openFile : String → OpenResult
  parseUrl : String → Option Url

/-- Embedding of `locate_git_credentials` from src/main.rs:
`env::var_os("GIT_CREDENTIALS").filter(|s| !s.is_empty())` wins, else
`env::home_dir().map(|home| home.join(".git-credentials"))`. -/
def locate_git_credentials (env : Env) : Option String :=
  match env.gitCredentialsVar.filter (fun s => !s.isEmpty) with
  | some path => some path
  | none => env.homeDir.map (fun home => home ++ "/.git-credentials")

/-- Gate (a) of the match loop, transcribed from
`if gc.protocol.as_deref() != Some(url.scheme()) && gc.host.as_deref() != url.host_str() { continue; }`:
`true` means the entry survives. -/
def gateA (gc : GitCredential) (url : Url) : Bool :=
  !(gc.protocol != some url.scheme && gc.host != url.host)

/-- The store-side username as the matcher sees it:
`Some(url.username()).filter(|s| !s.is_empty())`. -/
def entryUsername (url : Url) : Option String :=
  (some url.username).filter (fun s => !s.isEmpty)

/-- Gate (b) of the match loop, transcribed from the
`if let (Some(expected), Some(actual)) = (gc.username.as_deref(), Some(url.username()).filter(..)) && expected != actual { continue; }`
pattern: `true` means the entry survives. -/
def gateB (gc : GitCredential) (url : Url) : Bool :=
  match gc.username, entryUsername url with
  | some expected, some actual => !(expected != actual)
  | _, _ => true

/-- Gate (c) of the match loop, transcribed from the
`if let (Some(expected), actual) = (gc.path.as_deref(), trim_prefix(url.path(), "/")) && !expected.starts_with(actual) { continue; }`
pattern: `true` means the entry survives. -/
def gateC (gc : GitCredential) (url : Url) : Bool :=
  match gc.path with
  | some expected => starts_with expected ( trim_prefix url.path "/")
  | none => true

/-- An entry is a match when none of the three `continue` conditions
fires. -/
def matchesEntry (gc : GitCredential) (url : Url) : Bool :=
  gateA gc url && gateB gc url && gateC gc url

/-- The scan loop of `lookup_credential` over the line-read results: a
failed read is `ReadLine`, a parse failure is `InvalidUrl` with the raw
line, the first entry passing all gates is returned reconstructed, an
exhausted stream is `Ok(None)`. -/
def lookupLines (parseUrl : String → Option Url) (gc : GitCredential) :
    List (Option String) → Except LookupError (Option GitCredential)
  | [] => .ok none
  | lineRes :: rest =>
    match lineRes with
    | none => .error .readLine
    | some line =>
      match parseUrl line with
      | none => .error (.invalidUrl line)
      | some url =>
        if matchesEntry gc url then .ok (some (GitCredential.from_url url))
        else lookupLines parseUrl gc rest

/-- Embedding of `lookup_credential` from src/main.rs: locate the store
(failing with `LocateGitCredentials` when the locator returns `None`),
open it (`NotFound` is `Ok(None)`, any other open error is
`OpenGitCredentials` with the path), then scan. -/
def lookup_credential (env : Env) (gc : GitCredential) :
    Except LookupError (Option GitCredential) :=
  match locate_git_credentials env with
  | none => .error .locateGitCredentials
  | some path =>
    match env.openFile path with
    | .openError kind =>
      if kind = .notFound then .ok none
      else .error (.openGitCredentials path)
    | .opened lines => lookupLines env.parseUrl gc lines

deriving instance DecidableEq for Except

/-! Concrete requests, URLs and parser models used by counterexamples and
witnesses. -/

/-- The all-absent request. -/
def emptyReq : GitCredential := {}

/-- A request constraining only the protocol. -/
def gcHttps : GitCredential := { protocol := some "https" }

/-- Parsed form of the entry `https://example.com`. -/
def urlHttpsExample : Url :=
  { scheme := "https", username := "", password := none
    host := some "example.com", path := "/" }

/-- Parsed form of the entry `https://other.com`. -/
def urlHttpsOther : Url :=
  { scheme := "https", username := "", password := none
    host := some "other.com", path := "/" }

/-- Parsed form of the entry `ftp://example.com`. -/
def urlFtpExample : Url :=
  { scheme := "ftp", username := "", password := none
    host := some "example.com", path := "/" }

/-- Parsed form of the entry `ftp://other.com`. -/
def urlFtpOther : Url :=
  { scheme := "ftp", username := "", password := none
    host := some "other.com", path := "/" }

/-- Parsed form of a host-less entry such as `mailto:admin`. -/
def urlNoHost : Url :=
  { scheme := "mailto", username := "", password := none
    host := none, path := "admin" }

/-- Parsed form of the entry `https://example.com/repo`. -/
def urlRepo : Url :=
  { scheme := "https", username := "", password := none
    host := some "example.com", path := "/repo" }

/-- A parser model recognizing only the line `https://example.com`. -/
def parse1 : String → Option Url :=
  fun s => if s = "https://example.com" then some urlHttpsExample else none

/-- A parser model recognizing only the host-less line `mailto:admin`. -/
def parse2 : String → Option Url :=
  fun s => if s = "mailto:admin" then some urlNoHost else none

/-- An environment whose store path is the `GIT_CREDENTIALS` override and
whose store file does not exist. -/
def envNotFound : Env :=
  { gitCredentialsVar := some "/tmp/creds", homeDir := none
    openFile := fun _ => .openError .notFound, parseUrl := fun _ => none }

/-! Helper lemmas shared by the claim theorems. -/

/-- Characterization of the embedded `str::starts_with`: the pattern is a
prefix in the append sense. -/
theorem starts_with_iff (s pat : String) :
    starts_with s pat = true ↔ ∃ t, s = pat ++ t := by
  unfold starts_with
  rw [List.isPrefixOf_iff_prefix]
  constructor
  · rintro ⟨t, ht⟩
    exact ⟨⟨t⟩, by apply String.ext; simpa using ht.symm⟩
  · rintro ⟨t, rfl⟩
    exact ⟨t.data, by simp⟩

/-- Gate (a) unfolded: the entry survives exactly when the protocol or the
host comparison succeeds. -/
theorem gateA_eq_true_iff (gc : GitCredential) (url : Url) :
    gateA gc url = true ↔ (gc.protocol = some url.scheme ∨ gc.host = url.host) := by
  simp [gateA]

/-- Gate (b) unfolded: the entry survives exactly when the request gives no
username, the entry username is empty, or the two agree. -/
theorem gateB_eq_true_iff (gc : GitCredential) (url : Url) :
    gateB gc url = true ↔
      (gc.username = none ∨ url.username = "" ∨ gc.username = some url.username) := by
  rcases hgc : gc.username with _ | e
  · simp [gateB, hgc, entryUsername]
  · by_cases hu : url.username = ""
    · simp [gateB, hgc, entryUsername, Option.filter_some, hu,
        show ("".isEmpty) = true from rfl]
    · have hne : url.username.isEmpty = false := by
        rw [Bool.eq_false_iff]
        simpa [String.isEmpty_iff] using hu
      simp [gateB, hgc, entryUsername, Option.filter_some, hne, hu]

/-- An all-absent request matches an entry exactly when the entry URL has
no host: gates (b) and (c) pass vacuously, while gate (a) compares `none`
against `Some(scheme)` (never equal) and against the entry host. -/
theorem matchesEntry_empty_iff (url : Url) :
    matchesEntry emptyReq url = true ↔ url.host = none := by
  have hb : gateB emptyReq url = true := by simp [gateB, emptyReq]
  have hc : gateC emptyReq url = true := by simp [gateC, emptyReq]
  have hp : emptyReq.protocol = none := rfl
  have hh : emptyReq.host = none := rfl
  rw [matchesEntry, hb, hc, Bool.and_true, Bool.and_true, gateA_eq_true_iff, hp, hh]
  constructor
  · rintro (h | h)
    · exact absurd h (by simp)
    · exact h.symm
  · intro h
    exact Or.inr h.symm

/-- A scan over lines that all read, all parse, and all fail the match
predicate ends with `Ok(None)`. -/
theorem lookupLines_no_match (parse : String → Option Url) (gc : GitCredential)
    (lines : List (Option String))
    (h : ∀ l ∈ lines, ∃ s url, l = some s ∧ parse s = some url ∧
      matchesEntry gc url = false) :
    lookupLines parse gc lines = .ok none := by
  induction lines with
  | nil => rfl
  | cons l rest ih =>
    obtain ⟨s, url, rfl, hp, hm⟩ := h l (List.mem_cons_self l rest)
    simp only [lookupLines, hp, hm]
    exact ih (fun x hx => h x (List.mem_cons_of_mem _ hx))

/-- C1: gate (a) accepts an entry exactly when the request protocol equals
the entry scheme or the request host equals the entry host; an entry with
the wrong scheme but the right host passes, and vice versa, while an entry
matching neither is rejected. -/
theorem gateA_or_gate_rule :
    (∀ (gc : GitCredential) (url : Url),
      gateA gc url = true ↔ (gc.protocol = some url.scheme ∨ gc.host = url.host)) ∧
    gateA { protocol := some "https", host := some "example.com" } urlHttpsOther = true ∧
    gateA { protocol := some "https", host := some "example.com" } urlFtpExample = true ∧
    gateA { protocol := some "https", host := some "example.com" } urlFtpOther = false :=
  ⟨gateA_eq_true_iff, by decide, by decide, by decide⟩

/-- C6: gate (b) accepts exactly when the request or the entry leaves the
username unconstrained (request `None`, or entry username empty — the
present-but-empty store username counts as unspecified) or the two
usernames are equal. -/
theorem gateB_username_rule (gc : GitCredential) (url : Url) :
    gateB gc url = true ↔
      (gc.username = none ∨ url.username = "" ∨ gc.username = some url.username) :=
  gateB_eq_true_iff gc url

/-- C9: when the request host is absent, the host half of gate (a) passes
exactly when the entry URL has no host; hence a request with neither
protocol nor host never matches an entry whose URL has a host. -/
theorem gateA_absent_host_rule (gc : GitCredential) (url : Url)
    (h : gc.host = none) :
    (gateA gc url = true ↔ (gc.protocol = some url.scheme ∨ url.host = none)) ∧
    (gc.protocol = none → matchesEntry gc url = true → url.host = none) := by
  constructor
  · rw [gateA_eq_true_iff, h, eq_comm (a := (none : Option String))]
  · intro hp hm
    rw [matchesEntry, Bool.and_eq_true, Bool.and_eq_true] at hm
    rcases (gateA_eq_true_iff gc url).mp hm.1.1 with hs | hh
    · rw [hp] at hs
      exact absurd hs (by simp)
    · rw [h] at hh
      exact hh.symm

/-- C9 witness: the all-absent request passes gate (a) against the
host-less entry `mailto:admin`. -/
theorem gateA_absent_host_rule_witness : gateA emptyReq urlNoHost = true :=
  (gateA_absent_host_rule emptyReq urlNoHost rfl).1.mpr (Or.inr rfl)

/-- C10: a present-but-empty request username is a genuine constraint:
gate (b) then accepts exactly the entries whose URL username is empty. -/
theorem gateB_empty_request_username_rule (gc : GitCredential) (url : Url)
    (h : gc.username = some "") :
    gateB gc url = true ↔ url.username = "" := by
  rw [gateB_eq_true_iff, h]
  constructor
  · rintro (h1 | h1 | h1)
    · exact absurd h1 (by simp)
    · exact h1
    · exact (Option.some_inj.mp h1).symm
  · intro h1
    exact Or.inr (Or.inl h1)

/-- C10 witness: the empty-username request passes gate (b) against an
entry with an empty username. -/
theorem gateB_empty_request_username_rule_witness :
    gateB { username := some "" } urlHttpsExample = true :=
  (gateB_empty_request_username_rule { username := some "" } urlHttpsExample rfl).mpr rfl

/-- C2 counterexample: the all-absent request run against the one-line
store `https://example.com` (whose entry has a host) yields `Ok(None)`,
not the record reconstructed from that first entry. -/
theorem empty_request_first_entry_cex :
    lookupLines parse1 emptyReq [some "https://example.com"] = .ok none ∧
    (Except.ok none : Except LookupError (Option GitCredential)) ≠
      .ok (some (GitCredential.from_url urlHttpsExample)) :=
  ⟨rfl, by decide⟩

/-- C2 (amended): for the all-absent request, gates (b) and (c) pass
vacuously but gate (a) still compares `None` with `Some(scheme)` and with
the entry host, so the request matches exactly the entries whose URL has no
host; lookup returns the reconstruction of the first line when that line
parses to a host-less URL. -/
theorem empty_request_matches_hostless_first :
    (∀ url : Url, matchesEntry emptyReq url = true ↔ url.host = none) ∧
    (∀ (parse : String → Option Url) (line : String) (rest : List (Option String))
       (url : Url), parse line = some url → url.host = none →
      lookupLines parse emptyReq (some line :: rest) =
        .ok (some (GitCredential.from_url url))) := by
  refine ⟨matchesEntry_empty_iff, ?_⟩
  intro parse line rest url hp hh
  simp [lookupLines, hp, (matchesEntry_empty_iff url).mpr hh]

/-- C2 witness: the all-absent request matches the host-less first line
`mailto:admin`. -/
theorem empty_request_matches_hostless_first_witness :
    lookupLines parse2 emptyReq [some "mailto:admin"] =
      .ok (some (GitCredential.from_url urlNoHost)) :=
  empty_request_matches_hostless_first.2 parse2 "mailto:admin" [] urlNoHost rfl rfl

/-- C3 counterexample: when the first line already matches the request, the
scan returns it and never parses the malformed second line, so lookup does
not fail with `InvalidUrl`. -/
theorem bad_second_line_after_match_cex :
    lookupLines parse1 gcHttps [some "https://example.com", some ":::not-a-url"] =
      .ok (some (GitCredential.from_url urlHttpsExample)) ∧
    (Except.ok (some (GitCredential.from_url urlHttpsExample)) :
        Except LookupError (Option GitCredential)) ≠
      .error (.invalidUrl ":::not-a-url") :=
  ⟨rfl, by decide⟩

/-- C3 (amended): when the first line parses but does not match the
request, a malformed second line is fatal: lookup fails with `InvalidUrl`
carrying that line, whatever follows it. -/
theorem bad_line_fatal_when_first_unmatched (parse : String → Option Url)
    (gc : GitCredential) (l1 l2 : String) (rest : List (Option String))
    (url1 : Url) (h1 : parse l1 = some url1)
    (hnm : matchesEntry gc url1 = false) (h2 : parse l2 = none) :
    lookupLines parse gc (some l1 :: some l2 :: rest) =
      .error (.invalidUrl l2) := by
  simp [lookupLines, h1, h2, hnm]

/-- C3 witness: the all-absent request does not match `https://example.com`,
so the malformed second line `:::not-a-url` is fatal. -/
theorem bad_line_fatal_when_first_unmatched_witness :
    lookupLines parse1 emptyReq [some "https://example.com", some ":::not-a-url"] =
      .error (.invalidUrl ":::not-a-url") :=
  bad_line_fatal_when_first_unmatched parse1 emptyReq "https://example.com"
    ":::not-a-url" [] urlHttpsExample rfl rfl rfl

/-- C4: the first line whose entry passes all three gates determines the
result — whatever follows it, read errors and malformed lines included, is
never consumed — and a store whose entries all parse and all fail the match
yields `Ok(None)`. -/
theorem first_match_wins :
    (∀ (parse : String → Option Url) (gc : GitCredential) (l1 : String)
       (url1 : Url) (rest : List (Option String)),
      parse l1 = some url1 → matchesEntry gc url1 = true →
      lookupLines parse gc (some l1 :: rest) =
        .ok (some (GitCredential.from_url url1))) ∧
    (∀ (parse : String → Option Url) (gc : GitCredential)
       (lines : List (Option String)),
      (∀ l ∈ lines, ∃ s url, l = some s ∧ parse s = some url ∧
        matchesEntry gc url = false) →
      lookupLines parse gc lines = .ok none) := by
  constructor
  · intro parse gc l1 url1 rest h1 hm
    simp [lookupLines, h1, hm]
  · exact lookupLines_no_match

/-- C4 witness: with both store lines matching the protocol-only request,
the result is the record of the first line. -/
theorem first_match_wins_witness :
    lookupLines parse1 gcHttps
      [some "https://example.com", some "https://example.com"] =
      .ok (some (GitCredential.from_url urlHttpsExample)) :=
  first_match_wins.1 parse1 gcHttps "https://example.com" urlHttpsExample
    [some "https://example.com"] rfl rfl

/-- C5: when the request has a path, gate (c) accepts exactly the entries
whose slash-trimmed URL path is a prefix (in the append sense) of the
request path; with no request path the gate passes for every entry; a URL
path of `/` or of the empty string trims to the empty string, a prefix of
everything; the spec's two concrete examples behave as stated. -/
theorem gateC_path_rule :
    (∀ (gc : GitCredential) (url : Url) (p : String), gc.path = some p →
      (gateC gc url = true ↔ ∃ t, p = trim_prefix url.path "/" ++ t)) ∧
    (∀ (gc : GitCredential) (url : Url), gc.path = none → gateC gc url = true) ∧
    trim_prefix "/" "/" = "" ∧
    trim_prefix "" "/" = "" ∧
    gateC { path := some "repo/sub" } urlRepo = true ∧
    gateC { path := some "repo" }
      { scheme := "https", username := "", password := none
        host := some "example.com", path := "/repo/sub" } = false := by
  refine ⟨?_, ?_, by decide, by decide, by decide, by decide⟩
  · intro gc url p hp
    have hg : gateC gc url = starts_with p ( trim_prefix url.path "/") := by
      simp [gateC, hp]
    rw [hg]
    exact starts_with_iff _ _
  · intro gc url hp
    simp [gateC, hp]

/-- C5 witness: request path `repo/sub` passes gate (c) against the entry
`https://example.com/repo`. -/
theorem gateC_path_rule_witness :
    gateC { path := some "repo/sub" } urlRepo = true :=
  (gateC_path_rule.1 { path := some "repo/sub" } urlRepo "repo/sub" rfl).mpr
    ⟨"/sub", by decide⟩

/-- C7: once the store path is located, a `NotFound` open failure yields
`Ok(None)` while any other open failure yields `OpenGitCredentials`
carrying that path. -/
theorem open_failure_rule (env : Env) (gc : GitCredential) (path : String)
    (hloc : locate_git_credentials env = some path) :
    (env.openFile path = .openError .notFound →
      lookup_credential env gc = .ok none) ∧
    (∀ kind, kind ≠ IoErrorKind.notFound →
      env.openFile path = .openError kind →
      lookup_credential env gc = .error (.openGitCredentials path)) := by
  constructor
  · intro h
    simp [lookup_credential, hloc, h]
  · intro kind hk h
    simp [lookup_credential, hloc, h, hk]

/-- C7 witness: with the override path set and the store file absent,
lookup returns `Ok(None)`. -/
theorem open_failure_rule_witness :
    lookup_credential envNotFound emptyReq = .ok none :=
  (open_failure_rule envNotFound emptyReq "/tmp/creds" rfl).1 rfl

/-- C8: the locator returns the override variable's value when it is set
and non-empty, falls back to `<home>/.git-credentials` (nothing when no
home directory exists) otherwise, and a locator failure makes lookup fail
with `LocateGitCredentials`. -/
theorem locate_rule (env : Env) :
    (∀ p, env.gitCredentialsVar = some p → p ≠ "" →
      locate_git_credentials env = some p) ∧
    ((env.gitCredentialsVar = none ∨ env.gitCredentialsVar = some "") →
      locate_git_credentials env =
        env.homeDir.map (fun home => home ++ "/.git-credentials")) ∧
    (locate_git_credentials env = none →
      ∀ gc, lookup_credential env gc = .error .locateGitCredentials) := by
  refine ⟨?_, ?_, ?_⟩
  · intro p hp hne
    have hemp : p.isEmpty = false := by
      rw [Bool.eq_false_iff]
      simpa [String.isEmpty_iff] using hne
    simp [locate_git_credentials, hp, Option.filter_some, hemp]
  · rintro (h | h)
    · simp [locate_git_credentials, h]
    · simp [locate_git_credentials, h, Option.filter_some,
        show ("".isEmpty) = true from rfl]
  · intro hn gc
    simp [lookup_credential, hn]

/-- C8 witness: a non-empty `GIT_CREDENTIALS` value is returned as the
store path. -/
theorem locate_rule_witness :
    locate_git_credentials envNotFound = some "/tmp/creds" :=
  (locate_rule envNotFound).1 "/tmp/creds" rfl (by decide)
